import Mathlib

/-!
# usbrelease: a shallow embedding of `src/usbrelease.cpp`

The program lists the USB devices of the host and detaches or reattaches the
kernel driver of one interface of one device, through libusb.

The embedding follows the source function by function.

* libusb is an external library.  Its answers during one run are collected in
  the record `Libusb` (return codes, the device list, the error names); every
  call the program makes on it is recorded, in order, as an `Event`.
* C++ exceptions are values of `Exn`; a function that may throw returns an
  `Except Exn _` next to the events it issued before returning or throwing.
* Constructors, copy constructors and destructors are explicit functions
  (`USBDevice.copy`, `USBDevice.destroy`, `USBHandle.new`, `USBHandle.destroy`).
* `uint8_t` values are natural numbers reduced modulo 256, `int` values are
  integers (the range check of `std::stoi` is explicit).
* Two reads that C++ leaves undefined occur in the source: the handle that
  `libusb_open` did not write, and the object behind the past-the-end iterator.
  The first is the handle value `Handle.indeterminate`; the second is the
  device `Libusb.indeterminate`, an arbitrary parameter of the run.
* Four functions are declared `int` and have no `return` statement
  (`detachKernelDriver`, `reattachKernelDriver`, `do_reattach`, `do_detach`).
  C++ leaves undefined what happens when control reaches their closing brace.
  The calls made before that point are the same in every build; what the
  function then yields is `Libusb.offEnd`, an arbitrary parameter of the run:
  it returns to its caller, or an exception leaves it.
-/

namespace UsbRelease

/-! ## The external library -/

/-- A `libusb_device*`: the device it points to, with the three numbers libusb
reports for it. -/
structure LibusbDevice where
  id : Nat
  busNumber : Nat
  portNumber : Nat
  deviceAddress : Nat
deriving DecidableEq, Repr

/-- A `libusb_device_handle*`: the handle written by a successful
`libusb_open`, or the value of a variable that was never written. -/
inductive Handle where
  | opened (dev : LibusbDevice)
  | indeterminate
deriving DecidableEq, Repr

/-- The C++ exceptions of the program, each with the text given to its
constructor. -/
inductive Exn where
  | ios_failure (what : String)
  | invalid_argument (what : String)
  | out_of_range (what : String)
deriving DecidableEq, Repr

/-- Text of an exception, as given to its constructor (a standard library may
add the name of an error category to the text of `ios_base::failure`). -/
def Exn.what : Exn → String
  | .ios_failure w => w
  | .invalid_argument w => w
  | .out_of_range w => w

/-- The parameters of one run of the program: the answers of libusb, and what
the run yields where C++ leaves the behaviour undefined. -/
structure Libusb where
  /-- return code of `libusb_init` -/
  initRet : Int
  /-- return value of `libusb_get_device_list` -/
  listCount : Int
  /-- the array stored through the second argument of `libusb_get_device_list`;
  `none` when nothing was stored (the variable keeps the `NULL` it was given) -/
  listPtr : Option (List LibusbDevice)
  /-- return code of `libusb_open` on a device -/
  openRet : LibusbDevice → Int
  /-- return code of `libusb_detach_kernel_driver` -/
  detachRet : Handle → Nat → Int
  /-- return code of `libusb_attach_kernel_driver` -/
  attachRet : Handle → Nat → Int
  /-- the text of `libusb_error_name` -/
  errorName : Int → String
  /-- what a read that C++ leaves undefined yields as a device pointer -/
  indeterminate : LibusbDevice
  /-- what happens when control reaches the end of a function declared `int`
  that has no `return` statement: `.ok ()` when the function returns to its
  caller, `.error e` when the exception `e` leaves it -/
  offEnd : Except Exn Unit

/-- What the program does to the outside world, in order. -/
inductive Event where
  | libusb_init
  | libusb_exit
  | libusb_get_device_list
  | libusb_free_device_list (unrefDevices : Nat)
  | libusb_ref_device (dev : LibusbDevice)
  | libusb_unref_device (dev : LibusbDevice)
  | libusb_open (dev : LibusbDevice)
  | libusb_close (h : Handle)
  | libusb_detach_kernel_driver (h : Handle) (interface : Nat)
  | libusb_attach_kernel_driver (h : Handle) (interface : Nat)
  | print (line : String)
deriving DecidableEq, Repr

/-- Source lines 10-12: throws `std::ios_base::failure(libusb_error_name(code))`. -/
def raise_as_ioerror (usb : Libusb) (code : Int) : Exn :=
  .ios_failure (usb.errorName code)

/-- The handle `libusb_open` leaves in the variable it is given: it writes the
variable only when it succeeds. -/
def libusb_open (usb : Libusb) (dev : LibusbDevice) : Int × Handle :=
  (usb.openRet dev, if usb.openRet dev = 0 then .opened dev else .indeterminate)

/-! ## USBContext (lines 14-32) -/

structure USBContext where
  mContext : Unit
deriving DecidableEq, Repr

/-- Constructor, lines 19-23. -/
def USBContext.new (usb : Libusb) : List Event × Except Exn USBContext :=
  let ret := usb.initRet
  ([.libusb_init], if ret ≠ 0 then .error (raise_as_ioerror usb ret) else .ok ⟨()⟩)

/-- Destructor, lines 25-27. -/
def USBContext.destroy (_c : USBContext) : List Event :=
  [.libusb_exit]

/-! ## USBDevice (lines 59-114) -/

structure USBDevice where
  mDevice : LibusbDevice
deriving DecidableEq, Repr

/-- Constructor from a pointer, lines 64-66: no library call. -/
def USBDevice.new (aDevice : LibusbDevice) : USBDevice :=
  ⟨aDevice⟩

/-- Line 77. -/
def USBDevice.getDevice (d : USBDevice) : LibusbDevice :=
  d.mDevice

/-- Copy constructor, lines 68-71. -/
def USBDevice.copy (aOther : USBDevice) : List Event × USBDevice :=
  ([.libusb_ref_device aOther.getDevice], ⟨aOther.getDevice⟩)

/-- Destructor, lines 73-75. -/
def USBDevice.destroy (d : USBDevice) : List Event :=
  [.libusb_unref_device d.mDevice]

/-- Lines 103-105; the result is a `uint8_t`. -/
def USBDevice.getBusNumber (d : USBDevice) : Nat :=
  d.mDevice.busNumber % 256

/-- Lines 107-109. -/
def USBDevice.getPortNumber (d : USBDevice) : Nat :=
  d.mDevice.portNumber % 256

/-- Lines 111-113. -/
def USBDevice.getDeviceAddress (d : USBDevice) : Nat :=
  d.mDevice.deviceAddress % 256

/-- The loop of lines 94-96, from index `i`, with `fuel` iterations left:
`devices.push_back(USBDevice(device_list[i]))` builds a temporary from the
pointer, copies it into the list (the class has no move constructor) and
destroys the temporary.  An index outside the array reads an indeterminate
pointer. -/
def listAllDevices.loop (usb : Libusb) (device_list : List LibusbDevice) :
    Nat → Nat → List Event × List USBDevice
  | 0, _ => ([], [])
  | fuel + 1, i =>
    let temporary := USBDevice.new (device_list.getD i usb.indeterminate)
    let (e1, element) := temporary.copy
    let e2 := temporary.destroy
    let (es, rest) := listAllDevices.loop usb device_list fuel (i + 1)
    (e1 ++ e2 ++ es, element :: rest)

/-- Lines 81-101.  The count is passed to `raise_as_ioerror` as an `int`; the
error codes of libusb fit. -/
def USBDevice.listAllDevices (usb : Libusb) (_context : USBContext) :
    List Event × Except Exn (List USBDevice) :=
  let device_list_size := usb.listCount
  match usb.listPtr with
  | none => ([.libusb_get_device_list], .error (raise_as_ioerror usb device_list_size))
  | some device_list =>
    let (es, devices) := listAllDevices.loop usb device_list device_list_size.toNat 0
    ([.libusb_get_device_list] ++ es ++ [.libusb_free_device_list 0], .ok devices)

/-! ## USBHandle (lines 35-57 and 162-165) -/

structure USBHandle where
  mHandle : Handle
deriving DecidableEq, Repr

/-- Constructor, lines 162-165: the return code of `libusb_open` is dropped. -/
def USBHandle.new (usb : Libusb) (device : USBDevice) : List Event × USBHandle :=
  ([.libusb_open device.getDevice], ⟨(libusb_open usb device.getDevice).2⟩)

/-- Destructor, lines 42-44. -/
def USBHandle.destroy (h : USBHandle) : List Event :=
  [.libusb_close h.mHandle]

/-- Lines 46-50.  The function is declared `int` and has no `return`
statement: with a zero code control reaches its closing brace, and what
happens then is the parameter `offEnd` of the run. -/
def USBHandle.detachKernelDriver (usb : Libusb) (h : USBHandle) (interface : Nat) :
    List Event × Except Exn Unit :=
  let ret := usb.detachRet h.mHandle interface
  ([.libusb_detach_kernel_driver h.mHandle interface],
    if ret ≠ 0 then .error (raise_as_ioerror usb ret) else usb.offEnd)

/-- Lines 52-56, of the same shape as `detachKernelDriver`: no `return`
statement on the path of a zero code. -/
def USBHandle.reattachKernelDriver (usb : Libusb) (h : USBHandle) (interface : Nat) :
    List Event × Except Exn Unit :=
  let ret := usb.attachRet h.mHandle interface
  ([.libusb_attach_kernel_driver h.mHandle interface],
    if ret ≠ 0 then .error (raise_as_ioerror usb ret) else usb.offEnd)

/-! ## std::stoi -/

/-- The function `isspace` of the C locale. -/
def isspace (c : Char) : Bool :=
  c.toNat = 32 || (9 ≤ c.toNat && c.toNat ≤ 13)

/-- The function `isdigit`. -/
def isdigit (c : Char) : Bool :=
  48 ≤ c.toNat && c.toNat ≤ 57

/-- Value of a run of decimal digits, most significant first. -/
def digitsValue (acc : Nat) : List Char → Nat
  | [] => acc
  | c :: cs => digitsValue (acc * 10 + (c.toNat - 48)) cs

def INT_MAX : Int := 2147483647

def INT_MIN : Int := -2147483648

/-- The call `std::stoi(input)` (base 10, no position output): `strtol` skips
white space, reads an optional sign and the longest run of digits, and ignores
what follows; no digit gives `std::invalid_argument`, a value that does not fit
an `int` gives `std::out_of_range`. -/
def stoi (str : List Char) : Except Exn Int :=
  let s := str.dropWhile isspace
  let negative : Bool := s.head? = some '-'
  let body := if negative ∨ s.head? = some '+' then s.tail else s
  let ds := body.takeWhile isdigit
  if ds = [] then .error (.invalid_argument "stoi")
  else
    let v : Int := if negative then -(digitsValue 0 ds : Int) else (digitsValue 0 ds : Int)
    if v < INT_MIN ∨ INT_MAX < v then .error (.out_of_range "stoi") else .ok v

/-! ## AttachSpec (lines 116-160) -/

structure AttachSpec where
  mBus : Nat
  mAddr : Nat
  mInterface : Nat
deriving DecidableEq, Repr

/-- The `try` block of lines 126-130. -/
def AttachSpec.parseOneParam.body (input what : String) : Except Exn Nat :=
  match stoi input.toList with
  | .error e => .error e
  | .ok ret =>
    if ret < 0 ∨ ret > 255 then .error (.invalid_argument ("Invalid " ++ what))
    else .ok ((ret % 256).toNat)

/-- Lines 122-134: whatever the `try` block throws is caught and replaced by
`std::invalid_argument("Invalid " + what)`. -/
def AttachSpec.parseOneParam (input what : String) : Except Exn Nat :=
  match AttachSpec.parseOneParam.body input what with
  | .ok v => .ok v
  | .error _ => .error (.invalid_argument ("Invalid " ++ what))

/-- Constructor, lines 137-141; the parameters are `uint8_t`. -/
def AttachSpec.new (aBus aAddr aInterface : Nat) : AttachSpec :=
  ⟨aBus % 256, aAddr % 256, aInterface % 256⟩

/-- Lines 143-151: the three declarators are initialised in order. -/
def AttachSpec.parseFromCommand (busArg addrArg ifaceArg : String) : Except Exn AttachSpec :=
  match AttachSpec.parseOneParam busArg "busID" with
  | .error e => .error e
  | .ok bus =>
    match AttachSpec.parseOneParam addrArg "addrressID" with
    | .error e => .error e
    | .ok addr =>
      match AttachSpec.parseOneParam ifaceArg "interfaceID" with
      | .error e => .error e
      | .ok iface => .ok (AttachSpec.new bus addr iface)

/-- Lines 153-155. -/
def AttachSpec.matches (spec : AttachSpec) (device : USBDevice) : Bool :=
  device.getBusNumber == spec.mBus && device.getDeviceAddress == spec.mAddr

/-- Lines 157-159. -/
def AttachSpec.getInterface (spec : AttachSpec) : Nat :=
  spec.mInterface

/-! ## The commands (lines 167-192) -/

/-- Lines 167-176. -/
def print_usage : List Event :=
  [.print "Usage: usbrelease command",
   .print "Commands:",
   .print "   list",
   .print "      Lists all USB devices",
   .print "   detach (busID) (addr) (interfaceID)",
   .print "      Detaches a USB interface from the kernel driver",
   .print "   reattach (busID) (addr) (interfaceID)",
   .print "      Reattaches a USB interface to the kernel driver"]

/-- Lines 178-184. -/
def do_list (devices : List USBDevice) : List Event :=
  devices.map fun i =>
    .print ("Device: bus=" ++ toString i.getBusNumber ++ " port=" ++ toString i.getPortNumber
      ++ " addr=" ++ toString i.getDeviceAddress)

/-- Lines 186-188: the temporary handle is destroyed at the end of the
statement, also when the call throws.  The function is declared `int` and has
no `return` statement: when the call returns, control reaches the closing
brace, and what happens then is the parameter `offEnd` of the run. -/
def do_reattach (usb : Libusb) (device : USBDevice) (spec : AttachSpec) :
    List Event × Except Exn Unit :=
  let (e1, handle) := USBHandle.new usb device
  let (e2, r) := handle.reattachKernelDriver usb spec.getInterface
  (e1 ++ e2 ++ handle.destroy,
    match r with
    | .error e => .error e
    | .ok () => usb.offEnd)

/-- Lines 190-192, of the same shape as `do_reattach`: no `return` statement. -/
def do_detach (usb : Libusb) (device : USBDevice) (spec : AttachSpec) :
    List Event × Except Exn Unit :=
  let (e1, handle) := USBHandle.new usb device
  let (e2, r) := handle.detachKernelDriver usb spec.getInterface
  (e1 ++ e2 ++ handle.destroy,
    match r with
    | .error e => .error e
    | .ok () => usb.offEnd)

/-! ## main (lines 194-236) -/

/-- The algorithm `std::find_if` on a list: the position of the first element
that satisfies `pred`, the length of the list (the end iterator) when there is
none. -/
def find_if (pred : USBDevice → Bool) : List USBDevice → Nat
  | [] => 0
  | d :: ds => if pred d then 0 else find_if pred ds + 1

/-- The object `*it`: the element at the position, and an object with an
indeterminate pointer at the end position. -/
def deref (usb : Libusb) (devices : List USBDevice) (it : Nat) : USBDevice :=
  devices.getD it ⟨usb.indeterminate⟩

/-- Destructor of `std::list<USBDevice>`: every element is destroyed. -/
def destroyDevices (devices : List USBDevice) : List Event :=
  devices.flatMap USBDevice.destroy

/-- Lines 199-231, the part of the `try` block after the two declarations: the
events, and the value returned or the exception thrown. -/
def main.command (usb : Libusb) (devices : List USBDevice) (argv : List String) :
    List Event × Except Exn Int :=
  let argc := argv.length
  if argc < 2 then (print_usage, .ok 1)
  else if argv.getD 1 "" = "list" then (do_list devices, .ok 0)
  else if argv.getD 1 "" = "detach" ∨ argv.getD 1 "" = "reattach" then
    if argc < 5 then (print_usage, .ok 1)
    else
      match AttachSpec.parseFromCommand (argv.getD 2 "") (argv.getD 3 "") (argv.getD 4 "") with
      | .error e => ([], .error e)
      | .ok spec =>
        let it := find_if spec.matches devices
        let e1 : List Event := if it = devices.length then [.print "Device not found"] else []
        let (e2, r) :=
          if argv.getD 1 "" = "detach" then do_detach usb (deref usb devices it) spec
          else do_reattach usb (deref usb devices it) spec
        match r with
        | .error e => (e1 ++ e2, .error e)
        | .ok () => (e1 ++ e2, .ok 0)
  else (print_usage, .ok 1)

/-- Lines 232-235. -/
def main.handler (e : Exn) : List Event × Int :=
  ([.print ("Failure: " ++ e.what)], 2)

/-- Lines 194-236: the events of the run and the exit code.  Objects that were
constructed are destroyed in reverse order when the block is left, by a return
or by an exception.  The two declarations initialise `context` and `devices`
in place (no copy of the temporary is made). -/
def main (usb : Libusb) (argv : List String) : List Event × Int :=
  let (e0, c) := USBContext.new usb
  match c with
  | .error e => (e0 ++ (main.handler e).1, (main.handler e).2)
  | .ok context =>
    let (e1, l) := USBDevice.listAllDevices usb context
    match l with
    | .error e => (e0 ++ e1 ++ context.destroy ++ (main.handler e).1, (main.handler e).2)
    | .ok devices =>
      let (e2, r) := main.command usb devices argv
      let cleanup := destroyDevices devices ++ context.destroy
      match r with
      | .ok code => (e0 ++ e1 ++ e2 ++ cleanup, code)
      | .error e => (e0 ++ e1 ++ e2 ++ cleanup ++ (main.handler e).1, (main.handler e).2)

/-! ## Reference counts

libusb keeps one counter per device.  `libusb_get_device_list` hands the caller
one reference for every entry of the array, `libusb_ref_device` adds one,
`libusb_unref_device` removes one and destroys the device when the counter
reaches zero, `libusb_free_device_list(list, 0)` removes none.  The counters
below count the references held by the program. -/

structure RefCounts where
  /-- the counter of each device -/
  refcnt : LibusbDevice → Int
  /-- how many times each device was destroyed -/
  freed : LibusbDevice → Nat

/-- No reference held, nothing destroyed. -/
def RefCounts.zero : RefCounts :=
  ⟨fun _ => 0, fun _ => 0⟩

/-- Effect of `libusb_ref_device`. -/
def RefCounts.ref (s : RefCounts) (dev : LibusbDevice) : RefCounts :=
  { s with refcnt := Function.update s.refcnt dev (s.refcnt dev + 1) }

/-- Effect of `libusb_unref_device`. -/
def RefCounts.unref (s : RefCounts) (dev : LibusbDevice) : RefCounts :=
  let c := s.refcnt dev - 1
  { refcnt := Function.update s.refcnt dev c
    freed := if c = 0 then Function.update s.freed dev (s.freed dev + 1) else s.freed }

/-- Effect of one event on the counters. -/
def RefCounts.apply (usb : Libusb) (s : RefCounts) : Event → RefCounts
  | .libusb_get_device_list => (usb.listPtr.getD []).foldl RefCounts.ref s
  | .libusb_free_device_list unrefDevices =>
    if unrefDevices = 0 then s else (usb.listPtr.getD []).foldl RefCounts.unref s
  | .libusb_ref_device dev => s.ref dev
  | .libusb_unref_device dev => s.unref dev
  | _ => s

/-- Effect of a sequence of events on the counters. -/
def RefCounts.run (usb : Libusb) (s : RefCounts) (es : List Event) : RefCounts :=
  es.foldl (RefCounts.apply usb) s

/-- The `USBDevice` objects alive at some point of the program, with the
counters of libusb. -/
structure Objects where
  live : List USBDevice
  counts : RefCounts

/-- An operation of the program on its objects: copy the object at a position
(the copy is added at the end), or destroy the object at a position. -/
inductive Op where
  | copy (i : Nat)
  | destroy (i : Nat)
deriving DecidableEq, Repr

/-- One operation, through the copy constructor and the destructor of
`USBDevice`.  A position that holds no object is no operation. -/
def Objects.step (usb : Libusb) (o : Objects) : Op → Objects
  | .copy i =>
    match o.live[i]? with
    | none => o
    | some x => ⟨o.live ++ [x.copy.2], o.counts.run usb x.copy.1⟩
  | .destroy i =>
    match o.live[i]? with
    | none => o
    | some x => ⟨o.live.eraseIdx i, o.counts.run usb x.destroy⟩

/-- The objects and counters when `listAllDevices` has returned its list,
starting from a program that holds no reference. -/
def Objects.afterListing (usb : Libusb) (context : USBContext) : Option Objects :=
  match USBDevice.listAllDevices usb context with
  | (es, .ok devices) => some ⟨devices, RefCounts.zero.run usb es⟩
  | (_, .error _) => none

/-- Number of live objects that refer to a device. -/
def Objects.liveCount (o : Objects) (dev : LibusbDevice) : Nat :=
  o.live.countP fun x => x.mDevice = dev

/-- The counters agree with the live objects: the counter of a device is the
number of its live objects, a device is destroyed once when it was listed and
has no live object left and never otherwise, and only listed devices have
objects. -/
def Objects.Consistent (listed : List LibusbDevice) (o : Objects) : Prop :=
  ∀ d, o.counts.refcnt d = (o.liveCount d : Int) ∧
    o.counts.freed d = (if d ∈ listed ∧ o.liveCount d = 0 then 1 else 0) ∧
    (0 < o.liveCount d → d ∈ listed)

/-! ## Examples and notions of the specification -/

/-- Two attached devices, (bus 1, port 1, address 3) and (bus 1, port 2,
address 4); every library call succeeds, and a function that reaches its end
without a `return` statement returns to its caller. -/
def Examples.twoDevices : Libusb where
  initRet := 0
  listCount := 2
  listPtr := some [⟨1, 1, 1, 3⟩, ⟨2, 1, 2, 4⟩]
  openRet := fun _ => 0
  detachRet := fun _ _ => 0
  attachRet := fun _ _ => 0
  errorName := fun _ => "LIBUSB_ERROR"
  indeterminate := ⟨0, 0, 0, 0⟩
  offEnd := .ok ()

/-- The same two devices; `libusb_open` is refused with `LIBUSB_ERROR_ACCESS`
(code -3). -/
def Examples.openRefused : Libusb :=
  { Examples.twoDevices with openRet := fun _ => -3, errorName := fun _ => "LIBUSB_ERROR_ACCESS" }

/-- The same two devices and answers, with `libusb_error_name(0)` spelled out;
a function that reaches its end without a `return` statement runs into the
throw of `raise_as_ioerror` with the zero code. -/
def Examples.fallThrough : Libusb :=
  { Examples.twoDevices with
    errorName := fun code => if code = 0 then "LIBUSB_SUCCESS" else "LIBUSB_ERROR_OTHER"
    offEnd := Except.error (Exn.ios_failure "LIBUSB_SUCCESS") }

/-- The reading of the specification of a valid field: the text is a base-10
integer in [0,255], that is one or more decimal digits and nothing else, of
value at most 255. -/
def isByteNumeral (input : String) : Bool :=
  !input.toList.isEmpty && input.toList.all isdigit && decide (digitsValue 0 input.toList ≤ 255)

/-- The text starts with a numeral of value `r`: white space, an optional
sign, one or more decimal digits, then anything that does not begin with a
digit.  What follows the digits does not count. -/
def LeadingNumeral (input : List Char) (r : Int) : Prop :=
  ∃ ws sign ds rest : List Char,
    input = ws ++ (sign ++ (ds ++ rest)) ∧
    (∀ c ∈ ws, isspace c = true) ∧
    (sign = [] ∨ sign = ['+'] ∨ sign = ['-']) ∧
    ds ≠ [] ∧
    (∀ c ∈ ds, isdigit c = true) ∧
    (∀ c, rest.head? = some c → isdigit c = false) ∧
    r = if sign = ['-'] then -(digitsValue 0 ds : Int) else (digitsValue 0 ds : Int)

/-! ## Theorems

### The matching predicate -/

/-- C5.  `matches` holds exactly when the bus number and the address of the
device equal those of the spec.  Changing the port number of the device or the
interface number of the spec does not change the result.  `AttachSpec(2,5,0)`
matches a device with bus 2 and address 5, and does not match one with bus 2
and address 6. -/
theorem matches_iff (spec : AttachSpec) (device : USBDevice) :
    (spec.matches device = true ↔
      device.getBusNumber = spec.mBus ∧ device.getDeviceAddress = spec.mAddr) ∧
    (∀ port iface : Nat,
      AttachSpec.matches ⟨spec.mBus, spec.mAddr, iface⟩
        ⟨⟨device.mDevice.id, device.mDevice.busNumber, port, device.mDevice.deviceAddress⟩⟩
        = spec.matches device) ∧
    (∀ id port : Nat, (AttachSpec.new 2 5 0).matches ⟨⟨id, 2, port, 5⟩⟩ = true) ∧
    (∀ id port : Nat, (AttachSpec.new 2 5 0).matches ⟨⟨id, 2, port, 6⟩⟩ = false) := by
  refine ⟨?_, ?_, ?_, ?_⟩
  · simp [AttachSpec.matches]
  · intro port iface
    simp [AttachSpec.matches, USBDevice.getBusNumber, USBDevice.getDeviceAddress]
  · intro id port; rfl
  · intro id port; rfl

/-! ### The driver calls -/

/-- C9 (the code departs from the claim).  `detachKernelDriver` and
`reattachKernelDriver` are declared `int` and have no `return` statement.  When
the library call returns zero, control reaches the end of the function, and
the function does not complete without error in every run: in the run
`Examples.fallThrough` it ends with `ios_base::failure("LIBUSB_SUCCESS")`. -/
theorem zero_code_reaches_end :
    Examples.fallThrough.detachRet (.opened ⟨1, 1, 1, 3⟩) 0 = 0 ∧
    USBHandle.detachKernelDriver Examples.fallThrough ⟨.opened ⟨1, 1, 1, 3⟩⟩ 0 =
      ([.libusb_detach_kernel_driver (.opened ⟨1, 1, 1, 3⟩) 0],
        .error (.ios_failure "LIBUSB_SUCCESS")) ∧
    Examples.fallThrough.attachRet (.opened ⟨1, 1, 1, 3⟩) 0 = 0 ∧
    USBHandle.reattachKernelDriver Examples.fallThrough ⟨.opened ⟨1, 1, 1, 3⟩⟩ 0 =
      ([.libusb_attach_kernel_driver (.opened ⟨1, 1, 1, 3⟩) 0],
        .error (.ios_failure "LIBUSB_SUCCESS")) := by
  refine ⟨rfl, rfl, rfl, rfl⟩

/-- On the path the source does define: a code other than zero makes the
driver call throw `ios_base::failure` of the name of that code; with a zero
code the result is what the run yields at the end of the function. -/
theorem driver_call_result (usb : Libusb) (h : USBHandle) (interface : Nat) :
    (h.detachKernelDriver usb interface).2 =
      (if usb.detachRet h.mHandle interface ≠ 0
        then .error (.ios_failure (usb.errorName (usb.detachRet h.mHandle interface)))
        else usb.offEnd) ∧
    (h.reattachKernelDriver usb interface).2 =
      (if usb.attachRet h.mHandle interface ≠ 0
        then .error (.ios_failure (usb.errorName (usb.attachRet h.mHandle interface)))
        else usb.offEnd) :=
  ⟨rfl, rfl⟩

/-- C2 (the code departs from the claim).  When `libusb_open` is refused with
code -3, the constructor of `USBHandle` throws nothing: `do_detach` and
`do_reattach` go on to make the driver call and `libusb_close` on the handle
that was never written, and return normally. -/
theorem open_failure_ignored :
    Examples.openRefused.openRet ⟨1, 1, 1, 3⟩ = -3 ∧
    do_detach Examples.openRefused ⟨⟨1, 1, 1, 3⟩⟩ (AttachSpec.new 1 3 0) =
      ([.libusb_open ⟨1, 1, 1, 3⟩,
        .libusb_detach_kernel_driver .indeterminate 0,
        .libusb_close .indeterminate], .ok ()) ∧
    do_reattach Examples.openRefused ⟨⟨1, 1, 1, 3⟩⟩ (AttachSpec.new 1 3 0) =
      ([.libusb_open ⟨1, 1, 1, 3⟩,
        .libusb_attach_kernel_driver .indeterminate 0,
        .libusb_close .indeterminate], .ok ()) := by
  refine ⟨rfl, rfl, rfl⟩

/-! ### Resolution of the device -/

/-- C1 (the code departs from the claim).  With the devices (bus 1, address 3)
and (bus 1, address 4) attached, the commands `detach 9 9 0` and
`reattach 9 9 0` match no device.  The program prints "Device not found" and
goes on: it calls `libusb_open` on the object behind the past-the-end iterator,
makes the driver call, closes the handle and exits with code 0. -/
theorem not_found_still_opens :
    main Examples.twoDevices ["usbrelease", "detach", "9", "9", "0"] =
      ([.libusb_init, .libusb_get_device_list,
        .libusb_ref_device ⟨1, 1, 1, 3⟩, .libusb_unref_device ⟨1, 1, 1, 3⟩,
        .libusb_ref_device ⟨2, 1, 2, 4⟩, .libusb_unref_device ⟨2, 1, 2, 4⟩,
        .libusb_free_device_list 0,
        .print "Device not found",
        .libusb_open ⟨0, 0, 0, 0⟩,
        .libusb_detach_kernel_driver (.opened ⟨0, 0, 0, 0⟩) 0,
        .libusb_close (.opened ⟨0, 0, 0, 0⟩),
        .libusb_unref_device ⟨1, 1, 1, 3⟩, .libusb_unref_device ⟨2, 1, 2, 4⟩,
        .libusb_exit], 0) ∧
    main Examples.twoDevices ["usbrelease", "reattach", "9", "9", "0"] =
      ([.libusb_init, .libusb_get_device_list,
        .libusb_ref_device ⟨1, 1, 1, 3⟩, .libusb_unref_device ⟨1, 1, 1, 3⟩,
        .libusb_ref_device ⟨2, 1, 2, 4⟩, .libusb_unref_device ⟨2, 1, 2, 4⟩,
        .libusb_free_device_list 0,
        .print "Device not found",
        .libusb_open ⟨0, 0, 0, 0⟩,
        .libusb_attach_kernel_driver (.opened ⟨0, 0, 0, 0⟩) 0,
        .libusb_close (.opened ⟨0, 0, 0, 0⟩),
        .libusb_unref_device ⟨1, 1, 1, 3⟩, .libusb_unref_device ⟨2, 1, 2, 4⟩,
        .libusb_exit], 0) := by
  refine ⟨rfl, rfl⟩

theorem find_if_get? (pred : USBDevice → Bool) (l : List USBDevice)
    (h : ∃ d ∈ l, pred d = true) :
    ∃ d, l[find_if pred l]? = some d ∧ pred d = true := by
  induction l with
  | nil => simp at h
  | cons x xs ih =>
    simp only [find_if]
    by_cases hx : pred x = true
    · exact ⟨x, by simp [hx], hx⟩
    · have h2 : ∃ d ∈ xs, pred d = true := by
        obtain ⟨d, hd, hp⟩ := h
        rcases List.mem_cons.mp hd with rfl | hd
        · exact absurd hp hx
        · exact ⟨d, hd, hp⟩
      obtain ⟨d, hd, hp⟩ := ih h2
      exact ⟨d, by simpa [hx] using hd, hp⟩

theorem find_if_before (pred : USBDevice → Bool) (l : List USBDevice) :
    ∀ (j : Nat) (d : USBDevice), j < find_if pred l → l[j]? = some d → pred d = false := by
  induction l with
  | nil => intro j d hj; simp [find_if] at hj
  | cons x xs ih =>
    intro j d hj hd
    simp only [find_if] at hj
    by_cases hx : pred x = true
    · simp [hx] at hj
    · rw [if_neg hx] at hj
      cases j with
      | zero =>
        simp at hd
        subst hd
        simpa using hx
      | succ j =>
        simp at hd
        exact ih j d (by omega) hd

theorem find_if_eq_length (pred : USBDevice → Bool) (l : List USBDevice)
    (h : ∀ d ∈ l, pred d = false) : find_if pred l = l.length := by
  induction l with
  | nil => rfl
  | cons x xs ih =>
    have hx : pred x = false := h x (List.mem_cons_self _ _)
    simp [find_if, hx, ih (fun d hd => h d (List.mem_cons_of_mem _ hd))]

/-- When no device of the snapshot matches, the command `detach` prints
"Device not found" and then runs `do_detach` on the object behind the
past-the-end iterator; `reattach` does the same with `do_reattach`. -/
theorem command_not_found (usb : Libusb) (devices : List USBDevice)
    (prog busArg addrArg ifaceArg : String) (rest : List String) (spec : AttachSpec)
    (hparse : AttachSpec.parseFromCommand busArg addrArg ifaceArg = .ok spec)
    (hnone : ∀ d ∈ devices, spec.matches d = false) :
    (main.command usb devices (prog :: "detach" :: busArg :: addrArg :: ifaceArg :: rest)).1 =
      Event.print "Device not found" :: (do_detach usb ⟨usb.indeterminate⟩ spec).1 ∧
    (main.command usb devices (prog :: "reattach" :: busArg :: addrArg :: ifaceArg :: rest)).1 =
      Event.print "Device not found" :: (do_reattach usb ⟨usb.indeterminate⟩ spec).1 := by
  have hend : find_if spec.matches devices = devices.length :=
    find_if_eq_length spec.matches devices hnone
  have hderef : deref usb devices devices.length = ⟨usb.indeterminate⟩ := by
    simp [deref, List.getD_eq_getElem?_getD]
  have h2 : ¬ (rest.length + 1 + 1 + 1 + 1 + 1 < 2) := by omega
  have h5 : ¬ (rest.length + 1 + 1 + 1 + 1 + 1 < 5) := by omega
  constructor
  · simp only [main.command, List.length_cons, h2, h5, if_false, List.getD_cons_succ,
      List.getD_cons_zero, hparse, hend, hderef]
    simp
    split <;> simp_all
  · simp only [main.command, List.length_cons, h2, h5, if_false, List.getD_cons_succ,
      List.getD_cons_zero, hparse, hend, hderef]
    simp
    split <;> simp_all

/-- C6.  When some device of the snapshot matches the spec, `find_if` stops at
a device that matches and that no matching device precedes, and the command
`detach` (or `reattach`) issues its three library calls on that device and on
no other: `libusb_open` on it, the driver call with the interface of the spec,
and `libusb_close`. -/
theorem first_match_selected (usb : Libusb) (devices : List USBDevice)
    (prog cmd busArg addrArg ifaceArg : String) (rest : List String) (spec : AttachSpec)
    (hcmd : cmd = "detach" ∨ cmd = "reattach")
    (hparse : AttachSpec.parseFromCommand busArg addrArg ifaceArg = .ok spec)
    (hmatch : ∃ d ∈ devices, spec.matches d = true) :
    ∃ d, devices[find_if spec.matches devices]? = some d ∧ spec.matches d = true ∧
      (∀ (j : Nat) (d' : USBDevice), j < find_if spec.matches devices →
        devices[j]? = some d' → spec.matches d' = false) ∧
      (main.command usb devices (prog :: cmd :: busArg :: addrArg :: ifaceArg :: rest)).1 =
        [.libusb_open d.mDevice,
         if cmd = "detach"
           then .libusb_detach_kernel_driver (libusb_open usb d.mDevice).2 spec.mInterface
           else .libusb_attach_kernel_driver (libusb_open usb d.mDevice).2 spec.mInterface,
         .libusb_close (libusb_open usb d.mDevice).2] := by
  obtain ⟨d, hd, hp⟩ := find_if_get? spec.matches devices hmatch
  refine ⟨d, hd, hp, find_if_before spec.matches devices, ?_⟩
  have hderef : deref usb devices (find_if spec.matches devices) = d := by
    simp [deref, List.getD_eq_getElem?_getD, hd]
  have hne : find_if spec.matches devices ≠ devices.length := by
    intro h
    rw [h] at hd
    simp at hd
  have h2 : ¬ (rest.length + 1 + 1 + 1 + 1 + 1 < 2) := by omega
  have h5 : ¬ (rest.length + 1 + 1 + 1 + 1 + 1 < 5) := by omega
  rcases hcmd with rfl | rfl
  · simp only [main.command, List.length_cons, h2, h5, if_false, List.getD_cons_succ,
      List.getD_cons_zero, hparse, hne, hderef]
    simp [do_detach, USBHandle.new, USBHandle.detachKernelDriver,
      USBHandle.destroy, USBDevice.getDevice, AttachSpec.getInterface]
    split <;> simp_all
  · simp only [main.command, List.length_cons, h2, h5, if_false, List.getD_cons_succ,
      List.getD_cons_zero, hparse, hne, hderef]
    simp [do_reattach, USBHandle.new,
      USBHandle.reattachKernelDriver, USBHandle.destroy, USBDevice.getDevice,
      AttachSpec.getInterface]
    split <;> simp_all

/-- C6 on a snapshot where two devices have bus 1 and address 3: the calls are
made on the earlier one. -/
theorem first_match_selected_witness :
    ("detach" = "detach" ∨ "detach" = "reattach") ∧
    AttachSpec.parseFromCommand "1" "3" "0" = .ok ⟨1, 3, 0⟩ ∧
    (∃ d ∈ ([⟨⟨1, 1, 1, 4⟩⟩, ⟨⟨2, 1, 2, 3⟩⟩, ⟨⟨3, 1, 3, 3⟩⟩] : List USBDevice),
      AttachSpec.matches ⟨1, 3, 0⟩ d = true) ∧
    (main.command Examples.twoDevices [⟨⟨1, 1, 1, 4⟩⟩, ⟨⟨2, 1, 2, 3⟩⟩, ⟨⟨3, 1, 3, 3⟩⟩]
      ["usbrelease", "detach", "1", "3", "0"]).1 =
      [.libusb_open ⟨2, 1, 2, 3⟩,
       .libusb_detach_kernel_driver (.opened ⟨2, 1, 2, 3⟩) 0,
       .libusb_close (.opened ⟨2, 1, 2, 3⟩)] := by
  have hmatch : ∃ d ∈ ([⟨⟨1, 1, 1, 4⟩⟩, ⟨⟨2, 1, 2, 3⟩⟩, ⟨⟨3, 1, 3, 3⟩⟩] : List USBDevice),
      AttachSpec.matches ⟨1, 3, 0⟩ d = true := ⟨⟨⟨2, 1, 2, 3⟩⟩, by simp, rfl⟩
  refine ⟨Or.inl rfl, rfl, hmatch, ?_⟩
  obtain ⟨d, hd, -, -, hev⟩ := first_match_selected Examples.twoDevices
    [⟨⟨1, 1, 1, 4⟩⟩, ⟨⟨2, 1, 2, 3⟩⟩, ⟨⟨3, 1, 3, 3⟩⟩] "usbrelease" "detach" "1" "3" "0" []
    ⟨1, 3, 0⟩ (Or.inl rfl) rfl hmatch
  have hd2 : some (⟨⟨2, 1, 2, 3⟩⟩ : USBDevice) = some d := hd
  injection hd2 with hd2
  subst hd2
  exact hev

/-! ### Parsing of the three fields -/

theorem dropWhile_of_head (p : Char → Bool) (l : List Char)
    (h : ∀ c, l.head? = some c → p c = false) : l.dropWhile p = l := by
  cases l with
  | nil => rfl
  | cons a t => simp [List.dropWhile, h a (by simp)]

theorem dropWhile_append_all (p : Char → Bool) (ws t : List Char)
    (h : ∀ c ∈ ws, p c = true) : (ws ++ t).dropWhile p = t.dropWhile p := by
  induction ws with
  | nil => rfl
  | cons a ws ih =>
    have ha : p a = true := h a (List.mem_cons_self _ _)
    simp [List.dropWhile, ha, ih (fun c hc => h c (List.mem_cons_of_mem _ hc))]

theorem takeWhile_append_all (p : Char → Bool) (ds rest : List Char)
    (h : ∀ c ∈ ds, p c = true) (hr : ∀ c, rest.head? = some c → p c = false) :
    (ds ++ rest).takeWhile p = ds := by
  induction ds with
  | nil =>
    cases rest with
    | nil => rfl
    | cons a t => simp [List.takeWhile, hr a (by simp)]
  | cons a ds ih =>
    have ha : p a = true := h a (List.mem_cons_self _ _)
    simp [List.takeWhile, ha, ih (fun c hc => h c (List.mem_cons_of_mem _ hc))]

theorem head?_dropWhile_false (p : Char → Bool) (l : List Char) :
    ∀ c, (l.dropWhile p).head? = some c → p c = false := by
  induction l with
  | nil => intro c hc; simp at hc
  | cons a t ih =>
    intro c hc
    by_cases ha : p a = true
    · simp only [List.dropWhile, ha] at hc
      exact ih c hc
    · simp only [List.dropWhile, ha] at hc
      simp at hc
      subst hc
      simpa using ha

theorem mem_takeWhile_true (p : Char → Bool) (l : List Char) :
    ∀ c ∈ l.takeWhile p, p c = true := by
  induction l with
  | nil => intro c hc; simp at hc
  | cons a t ih =>
    intro c hc
    by_cases ha : p a = true
    · simp only [List.takeWhile, ha] at hc
      rcases List.mem_cons.mp hc with rfl | hc
      · exact ha
      · exact ih c hc
    · simp [List.takeWhile, ha] at hc

theorem sign_split (s : List Char) :
    ∃ sign body : List Char, s = sign ++ body ∧
      (sign = [] ∨ sign = ['+'] ∨ sign = ['-']) ∧
      (if decide (s.head? = some '-') = true ∨ s.head? = some '+' then s.tail else s) = body ∧
      (decide (s.head? = some '-') = true ↔ sign = ['-']) := by
  cases s with
  | nil => exact ⟨[], [], rfl, Or.inl rfl, by simp, by simp⟩
  | cons a t =>
    by_cases hm : a = '-'
    · subst hm
      exact ⟨['-'], t, rfl, Or.inr (Or.inr rfl), by simp, by simp⟩
    · by_cases hp : a = '+'
      · subst hp
        exact ⟨['+'], t, rfl, Or.inr (Or.inl rfl), by simp, by simp⟩
      · exact ⟨[], a :: t, rfl, Or.inl rfl, by simp [hm, hp], by simp [hm]⟩

theorem stoi_unfold (str : List Char) :
    stoi str =
      if (if decide ((str.dropWhile isspace).head? = some '-') = true ∨
            (str.dropWhile isspace).head? = some '+'
          then (str.dropWhile isspace).tail else str.dropWhile isspace).takeWhile isdigit = []
      then .error (.invalid_argument "stoi")
      else
        if (if decide ((str.dropWhile isspace).head? = some '-') = true
              then -(digitsValue 0 ((if decide ((str.dropWhile isspace).head? = some '-') = true ∨
                (str.dropWhile isspace).head? = some '+'
                then (str.dropWhile isspace).tail else str.dropWhile isspace).takeWhile isdigit) : Int)
              else (digitsValue 0 ((if decide ((str.dropWhile isspace).head? = some '-') = true ∨
                (str.dropWhile isspace).head? = some '+'
                then (str.dropWhile isspace).tail else str.dropWhile isspace).takeWhile isdigit) : Int))
              < INT_MIN ∨
            INT_MAX < (if decide ((str.dropWhile isspace).head? = some '-') = true
              then -(digitsValue 0 ((if decide ((str.dropWhile isspace).head? = some '-') = true ∨
                (str.dropWhile isspace).head? = some '+'
                then (str.dropWhile isspace).tail else str.dropWhile isspace).takeWhile isdigit) : Int)
              else (digitsValue 0 ((if decide ((str.dropWhile isspace).head? = some '-') = true ∨
                (str.dropWhile isspace).head? = some '+'
                then (str.dropWhile isspace).tail else str.dropWhile isspace).takeWhile isdigit) : Int))
        then .error (.out_of_range "stoi")
        else .ok (if decide ((str.dropWhile isspace).head? = some '-') = true
              then -(digitsValue 0 ((if decide ((str.dropWhile isspace).head? = some '-') = true ∨
                (str.dropWhile isspace).head? = some '+'
                then (str.dropWhile isspace).tail else str.dropWhile isspace).takeWhile isdigit) : Int)
              else (digitsValue 0 ((if decide ((str.dropWhile isspace).head? = some '-') = true ∨
                (str.dropWhile isspace).head? = some '+'
                then (str.dropWhile isspace).tail else str.dropWhile isspace).takeWhile isdigit) : Int)) :=
  rfl

/-- The value of `stoi` from the sign `sign` and the digits `ds` it reads. -/
theorem stoi_parts (str sign body : List Char)
    (hbody : (if decide ((str.dropWhile isspace).head? = some '-') = true ∨
        (str.dropWhile isspace).head? = some '+'
        then (str.dropWhile isspace).tail else str.dropWhile isspace) = body)
    (hneg : decide ((str.dropWhile isspace).head? = some '-') = true ↔ sign = ['-']) :
    stoi str =
      if body.takeWhile isdigit = [] then .error (.invalid_argument "stoi")
      else
        if (if sign = ['-'] then -(digitsValue 0 (body.takeWhile isdigit) : Int)
              else (digitsValue 0 (body.takeWhile isdigit) : Int)) < INT_MIN ∨
            INT_MAX < (if sign = ['-'] then -(digitsValue 0 (body.takeWhile isdigit) : Int)
              else (digitsValue 0 (body.takeWhile isdigit) : Int))
        then .error (.out_of_range "stoi")
        else .ok (if sign = ['-'] then -(digitsValue 0 (body.takeWhile isdigit) : Int)
              else (digitsValue 0 (body.takeWhile isdigit) : Int)) := by
  rw [stoi_unfold, hbody]
  by_cases hm : sign = ['-']
  · have : decide ((str.dropWhile isspace).head? = some '-') = true := hneg.mpr hm
    simp only [this, hm, if_true]
  · have : ¬ (decide ((str.dropWhile isspace).head? = some '-') = true) := fun h => hm (hneg.mp h)
    simp [this, hm]

/-- The sign and digits read by `stoi`, as a decomposition of the text. -/
theorem stoi_ok_leadingNumeral (str : List Char) (r : Int) (h : stoi str = .ok r) :
    LeadingNumeral str r ∧ INT_MIN ≤ r ∧ r ≤ INT_MAX := by
  obtain ⟨sign, body, hs, hsign, hbody, hneg⟩ := sign_split (str.dropWhile isspace)
  rw [stoi_parts str sign body hbody hneg] at h
  by_cases hds : body.takeWhile isdigit = []
  · rw [if_pos hds] at h; cases h
  · rw [if_neg hds] at h
    generalize hv : (if sign = ['-'] then -(digitsValue 0 (body.takeWhile isdigit) : Int)
      else (digitsValue 0 (body.takeWhile isdigit) : Int)) = v at h
    by_cases hrange : v < INT_MIN ∨ INT_MAX < v
    · rw [if_pos hrange] at h; cases h
    · rw [if_neg hrange] at h
      injection h with h
      subst h
      refine ⟨⟨str.takeWhile isspace, sign, body.takeWhile isdigit, body.dropWhile isdigit,
        ?_, mem_takeWhile_true _ _, hsign, hds, mem_takeWhile_true _ _,
        head?_dropWhile_false _ _, hv.symm⟩, ?_, ?_⟩
      · rw [List.takeWhile_append_dropWhile, ← hs, List.takeWhile_append_dropWhile]
      · omega
      · omega

theorem isdigit_not_isspace (c : Char) (h : isdigit c = true) : isspace c = false := by
  simp only [isdigit, Bool.and_eq_true, decide_eq_true_eq] at h
  simp only [isspace, Bool.or_eq_false_iff, decide_eq_false_iff_not, Bool.and_eq_false_iff]
  omega

/-- A text that starts with a numeral is read by `stoi` as that numeral, when
the value fits an `int`. -/
theorem stoi_of_leadingNumeral (str : List Char) (r : Int) (h : LeadingNumeral str r)
    (hmin : INT_MIN ≤ r) (hmax : r ≤ INT_MAX) : stoi str = .ok r := by
  obtain ⟨ws, sign, ds, rest, hstr, hws, hsign, hds, hdig, hrest, hr⟩ := h
  obtain ⟨d0, dt, hd0⟩ : ∃ d0 dt, ds = d0 :: dt := by
    cases ds with
    | nil => exact absurd rfl hds
    | cons a t => exact ⟨a, t, rfl⟩
  have hd0dig : isdigit d0 = true := hdig d0 (by simp [hd0])
  have hd0m : d0 ≠ '-' := by
    intro hc; rw [hc] at hd0dig; revert hd0dig; decide
  have hd0p : d0 ≠ '+' := by
    intro hc; rw [hc] at hd0dig; revert hd0dig; decide
  have hdrop : str.dropWhile isspace = sign ++ (ds ++ rest) := by
    rw [hstr, dropWhile_append_all _ _ _ hws]
    apply dropWhile_of_head
    intro c hc
    rcases hsign with rfl | rfl | rfl
    · simp [hd0] at hc; subst hc; exact isdigit_not_isspace _ hd0dig
    · simp at hc; subst hc; decide
    · simp at hc; subst hc; decide
  have hparts := stoi_parts str sign (ds ++ rest)
    (by
      rw [hdrop]
      rcases hsign with rfl | rfl | rfl
      · simp [hd0, hd0m, hd0p]
      · simp
      · simp)
    (by
      rw [hdrop]
      rcases hsign with rfl | rfl | rfl
      · simp [hd0, hd0m]
      · simp
      · simp)
  rw [hparts, takeWhile_append_all _ _ _ hdig hrest, if_neg hds, ← hr]
  rw [if_neg (by omega)]

theorem parseOneParam_ok_iff (input what : String) (v : Nat) :
    AttachSpec.parseOneParam input what = .ok v ↔
      LeadingNumeral input.toList v ∧ v ≤ 255 := by
  constructor
  · intro h
    unfold AttachSpec.parseOneParam AttachSpec.parseOneParam.body at h
    cases hst : stoi input.toList with
    | error e => rw [hst] at h; simp at h
    | ok r =>
      rw [hst] at h
      by_cases hr : r < 0 ∨ r > 255
      · simp [hr] at h
      · simp only [hr, if_false] at h
        injection h with h
        have hrv : r = (v : Int) := by omega
        subst hrv
        exact ⟨(stoi_ok_leadingNumeral _ _ hst).1, by omega⟩
  · rintro ⟨hl, hv⟩
    have hst := stoi_of_leadingNumeral input.toList v hl
      (by unfold INT_MIN; omega) (by unfold INT_MAX; omega)
    unfold AttachSpec.parseOneParam AttachSpec.parseOneParam.body
    rw [hst]
    have hr : ¬ ((v : Int) < 0 ∨ (v : Int) > 255) := by omega
    simp only [hr, if_false]
    congr 1
    omega

theorem parseOneParam_error (input what : String)
    (h : ¬ ∃ v : Nat, v ≤ 255 ∧ LeadingNumeral input.toList v) :
    AttachSpec.parseOneParam input what = .error (.invalid_argument ("Invalid " ++ what)) := by
  cases hb : AttachSpec.parseOneParam.body input what with
  | error e => simp [AttachSpec.parseOneParam, hb]
  | ok v =>
    have hp : AttachSpec.parseOneParam input what = .ok v := by
      simp [AttachSpec.parseOneParam, hb]
    exact absurd ⟨v, ((parseOneParam_ok_iff input what v).mp hp).2,
      ((parseOneParam_ok_iff input what v).mp hp).1⟩ h

theorem parseOneParam_accepts (input what : String)
    (h : ∃ v : Nat, v ≤ 255 ∧ LeadingNumeral input.toList v) :
    ∃ v, AttachSpec.parseOneParam input what = .ok v := by
  obtain ⟨v, hv, hl⟩ := h
  exact ⟨v, (parseOneParam_ok_iff input what v).mpr ⟨hl, hv⟩⟩

/-- C3, as amended.  A text that does not start, after white space and an
optional sign, with a decimal numeral of value in [0,255] is rejected by
`parseOneParam` with `std::invalid_argument("Invalid " + what)`, whatever the
field.  `parseFromCommand` then fails with "Invalid busID" when the text is the
bus argument, with "Invalid addrressID" when it is the address argument and the
bus argument is accepted, and with "Invalid interfaceID" when it is the
interface argument and the two others are accepted. -/
theorem parse_rejects_naming_field (input : String)
    (h : ¬ ∃ v : Nat, v ≤ 255 ∧ LeadingNumeral input.toList v) :
    (∀ what, AttachSpec.parseOneParam input what =
      .error (.invalid_argument ("Invalid " ++ what))) ∧
    (∀ addrArg ifaceArg, AttachSpec.parseFromCommand input addrArg ifaceArg =
      .error (.invalid_argument "Invalid busID")) ∧
    (∀ busArg ifaceArg, (∃ v : Nat, v ≤ 255 ∧ LeadingNumeral busArg.toList v) →
      AttachSpec.parseFromCommand busArg input ifaceArg =
        .error (.invalid_argument "Invalid addrressID")) ∧
    (∀ busArg addrArg, (∃ v : Nat, v ≤ 255 ∧ LeadingNumeral busArg.toList v) →
      (∃ v : Nat, v ≤ 255 ∧ LeadingNumeral addrArg.toList v) →
      AttachSpec.parseFromCommand busArg addrArg input =
        .error (.invalid_argument "Invalid interfaceID")) := by
  refine ⟨fun what => parseOneParam_error input what h, ?_, ?_, ?_⟩
  · intro addrArg ifaceArg
    simp only [AttachSpec.parseFromCommand, parseOneParam_error input "busID" h]
    rfl
  · intro busArg ifaceArg hb
    obtain ⟨vb, hvb⟩ := parseOneParam_accepts busArg "busID" hb
    simp only [AttachSpec.parseFromCommand, hvb, parseOneParam_error input "addrressID" h]
    rfl
  · intro busArg addrArg hb ha
    obtain ⟨vb, hvb⟩ := parseOneParam_accepts busArg "busID" hb
    obtain ⟨va, hva⟩ := parseOneParam_accepts addrArg "addrressID" ha
    simp only [AttachSpec.parseFromCommand, hvb, hva, parseOneParam_error input "interfaceID" h]
    rfl

/-- C3, as amended, on the text "abc". -/
theorem parse_rejects_naming_field_witness :
    (¬ ∃ v : Nat, v ≤ 255 ∧ LeadingNumeral "abc".toList v) ∧
    AttachSpec.parseFromCommand "abc" "3" "0" = .error (.invalid_argument "Invalid busID") ∧
    AttachSpec.parseOneParam "abc" "interfaceID" =
      .error (.invalid_argument "Invalid interfaceID") :=
  have h : ¬ ∃ v : Nat, v ≤ 255 ∧ LeadingNumeral "abc".toList v := by
    rintro ⟨v, hv, hl⟩
    have := (parseOneParam_ok_iff "abc" "" v).mpr ⟨hl, hv⟩
    exact absurd this (by intro hc; cases hc)
  ⟨h, (parse_rejects_naming_field "abc" h).2.1 "3" "0",
    (parse_rejects_naming_field "abc" h).1 "interfaceID"⟩

/-- C3 fails as stated.  The text "12abc" is not a base-10 integer, and it is
accepted as 12; so are " 3x" as 3 and "+0.5" as 0.  With an invalid bus text
and an invalid address text the message names the bus only. -/
theorem parse_accepts_trailing_text :
    isByteNumeral "12abc" = false ∧
    AttachSpec.parseOneParam "12abc" "busID" = .ok 12 ∧
    AttachSpec.parseFromCommand "12abc" " 3x" "+0.5" = .ok ⟨12, 3, 0⟩ ∧
    isByteNumeral "y" = false ∧
    AttachSpec.parseFromCommand "x" "y" "0" = .error (.invalid_argument "Invalid busID") := by
  refine ⟨by decide, rfl, rfl, by decide, rfl⟩

theorem stoi_toString (n : Nat) (h : n ≤ 255) : stoi (toString n).toList = .ok (n : Int) := by
  interval_cases n <;> rfl

theorem parseOneParam_toString (n : Nat) (what : String) (h : n ≤ 255) :
    AttachSpec.parseOneParam (toString n) what = .ok n := by
  have hst := stoi_toString n h
  unfold AttachSpec.parseOneParam AttachSpec.parseOneParam.body
  rw [hst]
  have hr : ¬ ((n : Int) < 0 ∨ (n : Int) > 255) := by omega
  simp only [hr, if_false]
  congr 1
  omega

/-- C4.  For b, a and i in [0,255], `parseFromCommand` on their decimal texts
succeeds with a spec whose three fields are b, a and i: `getInterface` returns
i, and the spec matches exactly the devices of bus b and address a. -/
theorem parse_roundtrip (b a i : Nat) (hb : b ≤ 255) (ha : a ≤ 255) (hi : i ≤ 255) :
    ∃ spec, AttachSpec.parseFromCommand (toString b) (toString a) (toString i) = .ok spec ∧
      spec.mBus = b ∧ spec.mAddr = a ∧ spec.mInterface = i ∧ spec.getInterface = i ∧
      ∀ device : USBDevice, spec.matches device = true ↔
        (device.getBusNumber = b ∧ device.getDeviceAddress = a) := by
  refine ⟨⟨b, a, i⟩, ?_, rfl, rfl, rfl, rfl, ?_⟩
  · simp only [AttachSpec.parseFromCommand, parseOneParam_toString _ _ hb,
      parseOneParam_toString _ _ ha, parseOneParam_toString _ _ hi, AttachSpec.new]
    rw [Nat.mod_eq_of_lt (by omega), Nat.mod_eq_of_lt (by omega), Nat.mod_eq_of_lt (by omega)]
  · intro device
    simp [AttachSpec.matches]

/-- C4 on the texts "2", "5" and "0". -/
theorem parse_roundtrip_witness :
    ∃ spec, AttachSpec.parseFromCommand (toString 2) (toString 5) (toString 0) = .ok spec ∧
      spec.mBus = 2 ∧ spec.mAddr = 5 ∧ spec.mInterface = 0 ∧ spec.getInterface = 0 ∧
      ∀ device : USBDevice, spec.matches device = true ↔
        (device.getBusNumber = 2 ∧ device.getDeviceAddress = 5) :=
  parse_roundtrip 2 5 0 (by decide) (by decide) (by decide)

/-! ### Enumeration -/

theorem loop_eq (usb : Libusb) (l : List LibusbDevice) :
    ∀ fuel i : Nat, i + fuel = l.length →
      listAllDevices.loop usb l fuel i =
        ((l.drop i).flatMap (fun d => [Event.libusb_ref_device d, Event.libusb_unref_device d]),
         (l.drop i).map USBDevice.new) := by
  intro fuel
  induction fuel with
  | zero =>
    intro i hi
    have : l.drop i = [] := List.drop_eq_nil_of_le (by omega)
    simp [listAllDevices.loop, this]
  | succ fuel ih =>
    intro i hi
    have hlt : i < l.length := by omega
    have hdrop : l.drop i = l[i] :: l.drop (i + 1) := List.drop_eq_getElem_cons hlt
    have hget : l.getD i usb.indeterminate = l[i] := by
      simp [List.getD_eq_getElem?_getD, List.getElem?_eq_getElem hlt]
    rw [hdrop]
    simp only [listAllDevices.loop, ih (i + 1) (by omega), hget]
    rfl

theorem listAllDevices_eq (usb : Libusb) (context : USBContext) (l : List LibusbDevice)
    (hl : usb.listPtr = some l) (hc : usb.listCount = l.length) :
    USBDevice.listAllDevices usb context =
      ([Event.libusb_get_device_list]
        ++ l.flatMap (fun d => [Event.libusb_ref_device d, Event.libusb_unref_device d])
        ++ [Event.libusb_free_device_list 0],
       .ok (l.map USBDevice.new)) := by
  have h := loop_eq usb l l.length 0 (by omega)
  simp only [List.drop_zero] at h
  simp [USBDevice.listAllDevices, hl, hc, h]

/-- C10.  For a result of `libusb_get_device_list` (when an array is stored,
the returned count is its length): `listAllDevices` throws the
`ios_base::failure` of the returned code when the count is negative or no
array was stored, and otherwise returns one `USBDevice` for each listed device,
in the order of the array.  An array of zero devices gives the empty list and
no exception. -/
theorem listAllDevices_result (usb : Libusb) (context : USBContext)
    (hwf : ∀ l, usb.listPtr = some l → usb.listCount = l.length) :
    (USBDevice.listAllDevices usb context).2 =
      (if usb.listCount < 0 ∨ usb.listPtr = none
        then .error (.ios_failure (usb.errorName usb.listCount))
        else .ok ((usb.listPtr.getD []).map USBDevice.new)) ∧
    (usb.listPtr = some [] → (USBDevice.listAllDevices usb context).2 = .ok []) := by
  cases hl : usb.listPtr with
  | none =>
    refine ⟨?_, fun h => by cases h⟩
    simp [USBDevice.listAllDevices, hl, raise_as_ioerror]
  | some l =>
    have hc := hwf l hl
    have hnn : ¬ (usb.listCount < 0) := by omega
    refine ⟨?_, ?_⟩
    · rw [listAllDevices_eq usb context l hl hc]
      simp [hnn]
    · intro h
      injection h with h
      subst h
      rw [listAllDevices_eq usb context [] hl hc]
      rfl

/-- C10 on the two devices of `Examples.twoDevices`. -/
theorem listAllDevices_result_witness :
    (∀ l, Examples.twoDevices.listPtr = some l → Examples.twoDevices.listCount = l.length) ∧
    (USBDevice.listAllDevices Examples.twoDevices ⟨()⟩).2 =
      .ok [⟨⟨1, 1, 1, 3⟩⟩, ⟨⟨2, 1, 2, 4⟩⟩] :=
  have hwf : ∀ l, Examples.twoDevices.listPtr = some l →
      Examples.twoDevices.listCount = l.length := by
    intro l hl
    have : l = [⟨1, 1, 1, 3⟩, ⟨2, 1, 2, 4⟩] := by
      simp only [Examples.twoDevices] at hl
      injection hl with hl
      exact hl.symm
    subst this
    rfl
  ⟨hwf, (listAllDevices_result Examples.twoDevices ⟨()⟩ hwf).1⟩

/-! ### Reference counts -/

theorem RefCounts.run_append (usb : Libusb) (s : RefCounts) (es fs : List Event) :
    s.run usb (es ++ fs) = (s.run usb es).run usb fs := by
  simp [RefCounts.run, List.foldl_append]

theorem RefCounts.ref_unref (s : RefCounts) (d : LibusbDevice) (h : s.refcnt d ≠ 0) :
    (s.ref d).unref d = s := by
  cases s with
  | mk refcnt freed =>
    simp only [RefCounts.ref, RefCounts.unref, Function.update_same, add_sub_cancel_right]
    simp only [RefCounts.mk.injEq]
    refine ⟨?_, ?_⟩
    · funext x
      by_cases hx : x = d
      · subst hx; simp
      · simp [Function.update, hx]
    · simp only at h
      simp [h]

theorem RefCounts.foldl_ref (l : List LibusbDevice) :
    ∀ s : RefCounts, (l.foldl RefCounts.ref s).freed = s.freed ∧
      ∀ d, (l.foldl RefCounts.ref s).refcnt d = s.refcnt d + (l.count d : Int) := by
  induction l with
  | nil => intro s; simp
  | cons a t ih =>
    intro s
    obtain ⟨h1, h2⟩ := ih (s.ref a)
    refine ⟨by rw [List.foldl_cons, h1]; rfl, ?_⟩
    intro d
    rw [List.foldl_cons, h2 d]
    by_cases hd : a = d
    · subst hd
      simp [RefCounts.ref]
      omega
    · have hd2 : d ≠ a := fun h => hd h.symm
      simp [RefCounts.ref, Function.update, hd, hd2, List.count_cons]

/-- The copies and destructions of the loop of `listAllDevices` leave the
counters as they were, and destroy nothing. -/
theorem RefCounts.run_loop (usb : Libusb) (l : List LibusbDevice) (s : RefCounts)
    (h : ∀ d ∈ l, s.refcnt d ≠ 0) :
    s.run usb (l.flatMap fun d => [Event.libusb_ref_device d, Event.libusb_unref_device d])
      = s := by
  induction l with
  | nil => rfl
  | cons a t ih =>
    rw [List.flatMap_cons, RefCounts.run_append]
    have h1 : s.run usb [Event.libusb_ref_device a, Event.libusb_unref_device a] = s := by
      simp only [RefCounts.run, List.foldl_cons, List.foldl_nil, RefCounts.apply]
      exact RefCounts.ref_unref s a (h a (List.mem_cons_self _ _))
    rw [h1]
    exact ih (fun d hd => h d (List.mem_cons_of_mem _ hd))

theorem afterListing_eq (usb : Libusb) (context : USBContext) (l : List LibusbDevice)
    (hl : usb.listPtr = some l) (hc : usb.listCount = l.length) :
    Objects.afterListing usb context =
      some ⟨l.map USBDevice.new, l.foldl RefCounts.ref RefCounts.zero⟩ := by
  have hrun : RefCounts.zero.run usb ([Event.libusb_get_device_list]
        ++ l.flatMap (fun d => [Event.libusb_ref_device d, Event.libusb_unref_device d])
        ++ [Event.libusb_free_device_list 0]) = l.foldl RefCounts.ref RefCounts.zero := by
    rw [RefCounts.run_append, RefCounts.run_append]
    have h1 : RefCounts.zero.run usb [Event.libusb_get_device_list]
        = l.foldl RefCounts.ref RefCounts.zero := by
      simp [RefCounts.run, RefCounts.apply, hl]
    rw [h1, RefCounts.run_loop]
    · simp [RefCounts.run, RefCounts.apply]
    · intro d hd
      rw [(RefCounts.foldl_ref l RefCounts.zero).2 d]
      have : 0 < l.count d := List.count_pos_iff.mpr hd
      simp only [RefCounts.zero]
      omega
  simp only [Objects.afterListing, listAllDevices_eq usb context l hl hc, hrun]

theorem countP_eraseIdx_add (p : USBDevice → Bool) (l : List USBDevice) :
    ∀ (i : Nat) (x : USBDevice), l[i]? = some x →
      (l.eraseIdx i).countP p + (if p x then 1 else 0) = l.countP p := by
  induction l with
  | nil => intro i x h; simp at h
  | cons a t ih =>
    intro i x h
    cases i with
    | zero =>
      simp at h
      subst h
      simp [List.countP_cons]
    | succ i =>
      simp at h
      have := ih i x h
      simp only [List.eraseIdx_cons_succ, List.countP_cons]
      omega

theorem countP_pos_of_getElem? (p : USBDevice → Bool) (l : List USBDevice) (i : Nat)
    (x : USBDevice) (h : l[i]? = some x) (hp : p x = true) : 0 < l.countP p := by
  have := countP_eraseIdx_add p l i x h
  simp only [hp, if_true] at this
  omega

theorem step_consistent (usb : Libusb) (listed : List LibusbDevice) (o : Objects) (op : Op)
    (h : o.Consistent listed) : (o.step usb op).Consistent listed := by
  cases op with
  | copy i =>
    simp only [Objects.step]
    cases hx : o.live[i]? with
    | none => exact h
    | some x =>
      intro d
      obtain ⟨h1, h2, h3⟩ := h d
      have hpos : x.mDevice = d → 0 < o.liveCount d := fun hd =>
        countP_pos_of_getElem? _ o.live i x hx (by simp [hd])
      have hlive : Objects.liveCount ⟨o.live ++ [x.copy.2], o.counts.run usb x.copy.1⟩ d
          = o.liveCount d + (if x.mDevice = d then 1 else 0) := by
        simp [Objects.liveCount, USBDevice.copy, USBDevice.getDevice, List.countP_cons]
      rw [hlive]
      simp only [USBDevice.copy, USBDevice.getDevice, RefCounts.run, List.foldl_cons,
        List.foldl_nil, RefCounts.apply, RefCounts.ref]
      by_cases hd : x.mDevice = d
      · have := hpos hd
        subst hd
        simp only [Function.update_same, if_true, h1]
        refine ⟨by push_cast; ring, ?_, fun _ => h3 this⟩
        rw [h2]
        have h0 : o.liveCount x.mDevice ≠ 0 := by omega
        simp [h0]
      · have hd2 : d ≠ x.mDevice := fun hc => hd hc.symm
        simp only [Function.update_noteq hd2, hd, if_false, Nat.add_zero]
        exact ⟨h1, h2, h3⟩
  | destroy i =>
    simp only [Objects.step]
    cases hx : o.live[i]? with
    | none => exact h
    | some x =>
      intro d
      obtain ⟨h1, h2, h3⟩ := h d
      have hxpos : 0 < o.liveCount x.mDevice :=
        countP_pos_of_getElem? _ o.live i x hx (by simp)
      have hcount := countP_eraseIdx_add (fun y => decide (y.mDevice = d)) o.live i x hx
      simp only [decide_eq_true_eq] at hcount
      simp only [Objects.liveCount] at h1 h2 h3 hxpos ⊢
      simp only [USBDevice.destroy, RefCounts.run, List.foldl_cons,
        List.foldl_nil, RefCounts.apply, RefCounts.unref]
      by_cases hd : x.mDevice = d
      · subst hd
        simp only [if_true] at hcount
        simp only [Function.update_same]
        have hin : x.mDevice ∈ listed := h3 (by omega)
        have hf : o.counts.freed x.mDevice = 0 := by
          rw [h2, if_neg]
          rintro ⟨_, h0⟩
          omega
        refine ⟨by omega, ?_, fun _ => hin⟩
        by_cases hz : o.counts.refcnt x.mDevice - 1 = 0
        · have hl0 : List.countP (fun y => decide (y.mDevice = x.mDevice)) (o.live.eraseIdx i) = 0 := by
            omega
          simp [hz, hl0, hf, hin]
        · have hl0 : List.countP (fun y => decide (y.mDevice = x.mDevice)) (o.live.eraseIdx i) ≠ 0 := by
            omega
          simp [hz, hl0, hf]
      · have hd2 : d ≠ x.mDevice := fun hc => hd hc.symm
        simp only [hd, if_false, Nat.add_zero] at hcount
        simp only [Function.update_noteq hd2, hcount]
        refine ⟨h1, ?_, h3⟩
        by_cases hz : o.counts.refcnt x.mDevice - 1 = 0
        · simp only [hz, if_true, Function.update_noteq hd2]
          exact h2
        · simp only [hz, if_false]
          exact h2

theorem foldl_step_consistent (usb : Libusb) (listed : List LibusbDevice) (ops : List Op) :
    ∀ o : Objects, o.Consistent listed → (ops.foldl (Objects.step usb) o).Consistent listed := by
  induction ops with
  | nil => intro o h; exact h
  | cons op ops ih => intro o h; exact ih _ (step_consistent usb listed o op h)

theorem afterListing_consistent (l : List LibusbDevice) :
    Objects.Consistent l ⟨l.map USBDevice.new, l.foldl RefCounts.ref RefCounts.zero⟩ := by
  intro d
  have hlive : Objects.liveCount ⟨l.map USBDevice.new, l.foldl RefCounts.ref RefCounts.zero⟩ d
      = l.count d := by
    simp only [Objects.liveCount, List.countP_map, List.count]
    congr 1
  obtain ⟨hf, hr⟩ := RefCounts.foldl_ref l RefCounts.zero
  rw [hlive]
  refine ⟨?_, ?_, fun hpos => List.count_pos_iff.mp hpos⟩
  · rw [hr d]; simp [RefCounts.zero]
  · rw [hf]
    simp only [RefCounts.zero]
    by_cases hd : d ∈ l
    · have : 0 < l.count d := List.count_pos_iff.mpr hd
      have h0 : l.count d ≠ 0 := by omega
      simp [h0]
    · simp [hd]

/-- C8.  After `listAllDevices` and any sequence of copies and destructions of
`USBDevice` objects, the counter of every device equals the number of live
objects that refer to it (so it is never negative), and a device has been
destroyed once when it was listed and has no live object left, and not at all
otherwise.  Copying an object and destroying the original leaves the copy
alive, its counter positive and its device not destroyed.  When every object
is destroyed, every counter is zero and every listed device has been destroyed
exactly once. -/
theorem refcount_invariant (usb : Libusb) (context : USBContext) (l : List LibusbDevice)
    (hl : usb.listPtr = some l) (hc : usb.listCount = l.length) (ops : List Op) :
    ∃ o0, Objects.afterListing usb context = some o0 ∧
      o0.live = l.map USBDevice.new ∧
      (∀ d, ((ops.foldl (Objects.step usb) o0).counts.refcnt d
          = ((ops.foldl (Objects.step usb) o0).liveCount d : Int)) ∧
        0 ≤ (ops.foldl (Objects.step usb) o0).counts.refcnt d ∧
        (ops.foldl (Objects.step usb) o0).counts.freed d
          = (if d ∈ l ∧ (ops.foldl (Objects.step usb) o0).liveCount d = 0 then 1 else 0)) ∧
      (∀ (i : Nat) (x : USBDevice), (ops.foldl (Objects.step usb) o0).live[i]? = some x →
        x.copy.2 ∈ (((ops.foldl (Objects.step usb) o0).step usb (.copy i)).step usb
          (.destroy i)).live ∧
        0 < (((ops.foldl (Objects.step usb) o0).step usb (.copy i)).step usb
          (.destroy i)).counts.refcnt x.mDevice ∧
        (((ops.foldl (Objects.step usb) o0).step usb (.copy i)).step usb
          (.destroy i)).counts.freed x.mDevice = 0) ∧
      ((ops.foldl (Objects.step usb) o0).live = [] →
        ∀ d, (ops.foldl (Objects.step usb) o0).counts.refcnt d = 0 ∧
          (ops.foldl (Objects.step usb) o0).counts.freed d = (if d ∈ l then 1 else 0)) := by
  refine ⟨_, afterListing_eq usb context l hl hc, rfl, ?_, ?_, ?_⟩
  · intro d
    obtain ⟨h1, h2, _⟩ := foldl_step_consistent usb l ops _ (afterListing_consistent l) d
    exact ⟨h1, by rw [h1]; exact Int.natCast_nonneg _, h2⟩
  · intro i x hx
    have hcons := foldl_step_consistent usb l ops _ (afterListing_consistent l)
    generalize List.foldl (Objects.step usb)
      ⟨l.map USBDevice.new, l.foldl RefCounts.ref RefCounts.zero⟩ ops = o at hx hcons
    have hcons2 := step_consistent usb l _ (.destroy i) (step_consistent usb l o (.copy i) hcons)
    have hilt : i < o.live.length := by
      rcases Nat.lt_or_ge i o.live.length with h | h
      · exact h
      · rw [List.getElem?_eq_none h] at hx; cases hx
    have hstep1 : o.step usb (.copy i) = ⟨o.live ++ [x.copy.2], o.counts.run usb x.copy.1⟩ := by
      simp [Objects.step, hx]
    have hget2 : (o.live ++ [x.copy.2])[i]? = some x := by
      rw [List.getElem?_append_left hilt]; exact hx
    have hmem : x.copy.2 ∈ ((o.step usb (.copy i)).step usb (.destroy i)).live := by
      rw [hstep1]
      simp only [Objects.step, hget2]
      rw [List.eraseIdx_append_of_lt_length hilt]
      simp
    obtain ⟨h1, h2, _⟩ := hcons2 x.mDevice
    have hpos : 0 < ((o.step usb (.copy i)).step usb (.destroy i)).liveCount x.mDevice := by
      simp only [Objects.liveCount]
      exact List.countP_pos_iff.mpr ⟨x.copy.2, hmem, by simp [USBDevice.copy, USBDevice.getDevice]⟩
    refine ⟨hmem, by rw [h1]; exact_mod_cast hpos, ?_⟩
    rw [h2, if_neg]
    rintro ⟨_, h0⟩
    omega
  · intro hnil d
    obtain ⟨h1, h2, _⟩ := foldl_step_consistent usb l ops _ (afterListing_consistent l) d
    have h0 : (ops.foldl (Objects.step usb)
        ⟨l.map USBDevice.new, l.foldl RefCounts.ref RefCounts.zero⟩).liveCount d = 0 := by
      simp [Objects.liveCount, hnil]
    rw [h1, h2, h0]
    simp

/-- C8 on the two devices of `Examples.twoDevices`: after a copy of the first
object and the destruction of the original and of the second object, the
counter of the first device is 1. -/
theorem refcount_invariant_witness :
    Examples.twoDevices.listPtr = some [⟨1, 1, 1, 3⟩, ⟨2, 1, 2, 4⟩] ∧
    Examples.twoDevices.listCount = ([⟨1, 1, 1, 3⟩, ⟨2, 1, 2, 4⟩] : List LibusbDevice).length ∧
    ∃ o0, Objects.afterListing Examples.twoDevices ⟨()⟩ = some o0 ∧
      (([Op.copy 0, Op.destroy 0, Op.destroy 0].foldl
        (Objects.step Examples.twoDevices) o0).counts.refcnt ⟨1, 1, 1, 3⟩ = 1) :=
  ⟨rfl, rfl,
    (refcount_invariant Examples.twoDevices ⟨()⟩ [⟨1, 1, 1, 3⟩, ⟨2, 1, 2, 4⟩] rfl rfl
      [Op.copy 0, Op.destroy 0, Op.destroy 0]).elim
      fun o0 h => ⟨o0, h.1, by
        have hinv := (h.2.2.1 ⟨1, 1, 1, 3⟩).1
        have ho : o0 = ⟨[⟨⟨1, 1, 1, 3⟩⟩, ⟨⟨2, 1, 2, 4⟩⟩],
            List.foldl RefCounts.ref RefCounts.zero [⟨1, 1, 1, 3⟩, ⟨2, 1, 2, 4⟩]⟩ := by
          have h1 := h.1
          rw [afterListing_eq Examples.twoDevices ⟨()⟩ [⟨1, 1, 1, 3⟩, ⟨2, 1, 2, 4⟩] rfl rfl] at h1
          injection h1 with h1
          exact h1.symm
        subst ho
        rw [hinv]
        rfl⟩⟩

end UsbRelease
